import Mathlib

/-!
Verification of the rinha-backend-2024-q1 account-ledger service.

The Go source (src/main.go) exposes two HTTP handlers over a Postgres pool:
handleTransactions (POST /clientes/:id/transacoes) and handleTransactionLog
(GET /clientes/:id/extrato), plus the helper clientExists. We embed the
handlers as pure functions: the database effects that the handlers observe
(success of the INSERT Exec, the result of the separate balance Scan, the
rows returned by the statement query) are passed in as explicit oracle
values, and the list of inserted transaction rows is threaded as state so
that storage mutation is observable. The atomic balance update itself lives
in the database layer, which is not part of src/; it is modelled
separately from the spec (applyTransaction below).
-/

namespace Rinha

/-- Request payload of a transaction, mirroring the Go struct
TransacaoRequest with fields Valor, Tipo, Descricao. -/
structure TransacaoRequest where
  valor : Int
  tipo : String
  descricao : String
deriving DecidableEq, Repr

/-- Response body of a successful transaction, mirroring the Go struct
Balance with fields Saldo and Limite; its Go zero value is saldo 0,
limite 0. -/
structure Balance where
  saldo : Int
  limite : Int
deriving DecidableEq, Repr

/-- A persisted transaction row, mirroring the columns of the transacoes
table inserted by the handler (valor, tipo, descricao, cliente_id) plus the
server-assigned timestamp realizada_em. -/
structure Transacao where
  clienteId : Int
  valor : Int
  tipo : String
  descricao : String
  realizadaEm : Nat
deriving DecidableEq, Repr

/-- Embedding of clientExists (src/main.go lines 46-51): the provisioned
set is the hard-coded numeric range, id greater than 0 and at most 5;
true means the client exists, false stands for the returned error. -/
def clientExists (id : Int) : Bool :=
  decide (id > 0) && decide (id ≤ 5)

/-- Database oracle for one run of handleTransactions: whether the INSERT
Exec succeeds, the result of the separate SELECT limite, saldo Scan (none
means the Scan returned an error), and the timestamp the database assigns
to the inserted row. -/
structure TxEnv where
  insertOk : Bool
  scanResult : Option Balance
  now : Nat
deriving DecidableEq, Repr

/-- Observable outcome of one run of handleTransactions: the HTTP status,
the JSON body when one is written, whether the INSERT Exec was reached,
and the transacoes table after the run. -/
structure TxOutcome where
  status : Nat
  body : Option Balance
  insertAttempted : Bool
  store : List Transacao
deriving DecidableEq, Repr

/-- Embedding of handleTransactions (src/main.go lines 53-100). The id
parameter is an Option Int: none models a path segment that fails to parse,
and the handler discards the parse error and uses the zero value 0, exactly
as the Go code overwrites err from ParamsInt. A body of none models a
json.Unmarshal failure. The description check rejects when the rune count
is above 10 or below 1; the type check rejects anything other than the
exact strings c and d; a failed Exec returns 422; the error of the
balance Scan is discarded, leaving the zero-valued Balance struct, and the
handler then returns status 200 with the marshalled body. -/
def handleTransactions (idParam : Option Int) (body : Option TransacaoRequest)
    (env : TxEnv) (store : List Transacao) : TxOutcome :=
  if clientExists (idParam.getD 0) then
    match body with
    | none => ⟨422, none, false, store⟩
    | some t =>
      if t.descricao.length > 10 ∨ t.descricao.length < 1 then
        ⟨422, none, false, store⟩
      else if t.tipo ≠ "c" ∧ t.tipo ≠ "d" then
        ⟨422, none, false, store⟩
      else if env.insertOk then
        ⟨200, some (env.scanResult.getD ⟨0, 0⟩), true,
          store ++ [⟨idParam.getD 0, t.valor, t.tipo, t.descricao, env.now⟩]⟩
      else
        ⟨422, none, true, store⟩
  else
    ⟨404, none, false, store⟩

theorem clientExists_iff (id : Int) : clientExists id = true ↔ 0 < id ∧ id ≤ 5 := by
  simp [clientExists]

/-- C8: a transaction submitted with a client id outside the provisioned
range yields status 404 with no body, the INSERT is never reached, and the
stored transactions are unchanged. -/
theorem C8_unknown_client (id : Int) (body : Option TransacaoRequest)
    (env : TxEnv) (store : List Transacao)
    (h : ¬ (0 < id ∧ id ≤ 5)) :
    handleTransactions (some id) body env store = ⟨404, none, false, store⟩ := by
  have hc : clientExists id = false := by
    simp [clientExists]
    omega
  simp [handleTransactions, hc]

theorem C8_unknown_client_witness :
    handleTransactions (some 999) (some ⟨100, "d", "teste"⟩) ⟨true, some ⟨0, 1000⟩, 3⟩ []
      = ⟨404, none, false, []⟩ :=
  C8_unknown_client 999 (some ⟨100, "d", "teste"⟩) ⟨true, some ⟨0, 1000⟩, 3⟩ [] (by decide)

theorem insertAttempted_of_valid (idParam : Option Int) (t : TransacaoRequest)
    (env : TxEnv) (store : List Transacao)
    (hid : clientExists (idParam.getD 0) = true)
    (h10 : ¬ 10 < t.descricao.length) (h0 : ¬ t.descricao.length = 0)
    (ht2 : ¬ (t.tipo ≠ "c" ∧ t.tipo ≠ "d")) :
    (handleTransactions idParam (some t) env store).insertAttempted = true := by
  by_cases hins : env.insertOk <;>
    simp [handleTransactions, hid, h10, h0, ht2, hins]

/-- C10: when the INSERT succeeds but the Scan of the follow-up balance
query fails, the discarded error leaves the zero-valued Balance struct, so
the handler still answers 200 with a body whose saldo and limite are 0. -/
theorem C10_scan_error_discarded (idParam : Option Int) (t : TransacaoRequest)
    (store : List Transacao) (now : Nat)
    (hid : clientExists (idParam.getD 0) = true)
    (hd : 1 ≤ t.descricao.length ∧ t.descricao.length ≤ 10)
    (ht : t.tipo = "c" ∨ t.tipo = "d") :
    (handleTransactions idParam (some t) ⟨true, none, now⟩ store).status = 200 ∧
    (handleTransactions idParam (some t) ⟨true, none, now⟩ store).body = some ⟨0, 0⟩ := by
  have h10 : ¬ 10 < t.descricao.length := by omega
  have h0 : ¬ t.descricao.length = 0 := by omega
  have ht2 : ¬ (t.tipo ≠ "c" ∧ t.tipo ≠ "d") := by tauto
  simp [handleTransactions, hid, h10, h0, ht2]

theorem C10_scan_error_discarded_witness :
    (handleTransactions (some 1) (some ⟨250, "c", "bonus"⟩) ⟨true, none, 9⟩ []).status = 200 ∧
    (handleTransactions (some 1) (some ⟨250, "c", "bonus"⟩) ⟨true, none, 9⟩ []).body = some ⟨0, 0⟩ :=
  C10_scan_error_discarded (some 1) ⟨250, "c", "bonus"⟩ [] 9 (by decide) (by decide) (by decide)

/-- C5: with a provisioned client and a valid type, the handler proceeds to
the INSERT exactly when the description has Unicode code-point count
between 1 and 10; moreover a 10-code-point description of two-byte
characters (20 UTF-8 bytes) is accepted, showing the count is over code
points rather than bytes. -/
theorem C5_descricao_boundary (idParam : Option Int) (t : TransacaoRequest)
    (env : TxEnv) (store : List Transacao)
    (hid : clientExists (idParam.getD 0) = true)
    (ht : t.tipo = "c" ∨ t.tipo = "d") :
    ((handleTransactions idParam (some t) env store).insertAttempted = true ↔
      1 ≤ t.descricao.length ∧ t.descricao.length ≤ 10) ∧
    (handleTransactions idParam (some ⟨t.valor, t.tipo, "áéíóúâêîôû"⟩) env store).insertAttempted
      = true ∧
    ("áéíóúâêîôû" : String).length = 10 ∧ ("áéíóúâêîôû" : String).utf8ByteSize = 20 := by
  have ht2 : ¬ (t.tipo ≠ "c" ∧ t.tipo ≠ "d") := by tauto
  refine ⟨⟨?_, ?_⟩, ?_, by decide, by decide⟩
  · intro h
    by_contra hlen
    have hcond : 10 < t.descricao.length ∨ t.descricao.length = 0 := by omega
    simp [handleTransactions, hid, hcond] at h
  · intro hlen
    have h10 : ¬ 10 < t.descricao.length := by omega
    have h0 : ¬ t.descricao.length = 0 := by omega
    exact insertAttempted_of_valid idParam t env store hid h10 h0 ht2
  · exact insertAttempted_of_valid idParam ⟨t.valor, t.tipo, "áéíóúâêîôû"⟩ env store hid
      (show ¬ 10 < ("áéíóúâêîôû" : String).length by decide)
      (show ¬ ("áéíóúâêîôû" : String).length = 0 by decide) ht2

theorem C5_descricao_boundary_witness :
    ((handleTransactions (some 2) (some ⟨7, "d", "x"⟩) ⟨true, some ⟨0, 0⟩, 1⟩ []).insertAttempted
        = true ↔ 1 ≤ ("x" : String).length ∧ ("x" : String).length ≤ 10) ∧
    (handleTransactions (some 2) (some ⟨7, "d", "áéíóúâêîôû"⟩)
        ⟨true, some ⟨0, 0⟩, 1⟩ []).insertAttempted = true ∧
    ("áéíóúâêîôû" : String).length = 10 ∧ ("áéíóúâêîôû" : String).utf8ByteSize = 20 :=
  C5_descricao_boundary (some 2) ⟨7, "d", "x"⟩ ⟨true, some ⟨0, 0⟩, 1⟩ [] (by decide) (by decide)

/-- C6: with a provisioned client and a description of valid length, the
handler proceeds to the INSERT exactly when the type field is the exact
string c or the exact string d. -/
theorem C6_tipo_exact (idParam : Option Int) (t : TransacaoRequest)
    (env : TxEnv) (store : List Transacao)
    (hid : clientExists (idParam.getD 0) = true)
    (hd : 1 ≤ t.descricao.length ∧ t.descricao.length ≤ 10) :
    (handleTransactions idParam (some t) env store).insertAttempted = true ↔
      (t.tipo = "c" ∨ t.tipo = "d") := by
  have h10 : ¬ 10 < t.descricao.length := by omega
  have h0 : ¬ t.descricao.length = 0 := by omega
  constructor
  · intro h
    by_contra ht
    have ht2 : t.tipo ≠ "c" ∧ t.tipo ≠ "d" := by tauto
    simp [handleTransactions, hid, h10, h0, ht2] at h
  · intro ht
    have ht2 : ¬ (t.tipo ≠ "c" ∧ t.tipo ≠ "d") := by tauto
    exact insertAttempted_of_valid idParam t env store hid h10 h0 ht2

theorem C6_tipo_exact_witness :
    (handleTransactions (some 3) (some ⟨40, "c", "pix"⟩)
        ⟨true, some ⟨40, 500⟩, 2⟩ []).insertAttempted = true ↔
      (("c" : String) = "c" ∨ ("c" : String) = "d") :=
  C6_tipo_exact (some 3) ⟨40, "c", "pix"⟩ ⟨true, some ⟨40, 500⟩, 2⟩ [] (by decide) (by decide)

/-- C3 counterexample: a request with the non-positive amount 0, valid
description and type, is not rejected: the handler reaches the INSERT, the
row is stored, and the response is 200 — refuting that non-positive
amounts are rejected before storage. -/
theorem C3_counterexample :
    (handleTransactions (some 1) (some ⟨0, "d", "teste"⟩) ⟨true, some ⟨0, 1000⟩, 1⟩ []).status
        = 200 ∧
    (handleTransactions (some 1) (some ⟨0, "d", "teste"⟩) ⟨true, some ⟨0, 1000⟩, 1⟩
        []).insertAttempted = true ∧
    (handleTransactions (some 1) (some ⟨0, "d", "teste"⟩) ⟨true, some ⟨0, 1000⟩, 1⟩ []).store
        = [⟨1, 0, "d", "teste", 1⟩] := by
  decide

/-- C3 amended: a body that fails to deserialize (such as a non-integer
amount) is rejected with 422 before any storage access, leaving the stored
transactions unchanged; but a body that does deserialize with a zero or
negative integer amount passes validation unchecked, and with valid
description and type the INSERT is reached regardless of the sign of the
amount. -/
theorem C3_amended_validation (idParam : Option Int) (t : TransacaoRequest)
    (env : TxEnv) (store : List Transacao)
    (hid : clientExists (idParam.getD 0) = true)
    (hd : 1 ≤ t.descricao.length ∧ t.descricao.length ≤ 10)
    (ht : t.tipo = "c" ∨ t.tipo = "d") :
    handleTransactions idParam none env store = ⟨422, none, false, store⟩ ∧
    (handleTransactions idParam (some t) env store).insertAttempted = true := by
  have h10 : ¬ 10 < t.descricao.length := by omega
  have h0 : ¬ t.descricao.length = 0 := by omega
  have ht2 : ¬ (t.tipo ≠ "c" ∧ t.tipo ≠ "d") := by tauto
  exact ⟨by simp [handleTransactions, hid],
    insertAttempted_of_valid idParam t env store hid h10 h0 ht2⟩

theorem C3_amended_validation_witness :
    handleTransactions (some 1) none ⟨true, some ⟨0, 1000⟩, 1⟩ [] = ⟨422, none, false, []⟩ ∧
    (handleTransactions (some 1) (some ⟨-5, "d", "neg"⟩)
        ⟨true, some ⟨0, 1000⟩, 1⟩ []).insertAttempted = true :=
  C3_amended_validation (some 1) ⟨-5, "d", "neg"⟩ ⟨true, some ⟨0, 1000⟩, 1⟩ []
    (by decide) (by decide) (by decide)

/-- C4 counterexample: when the INSERT Exec itself fails on a well-formed
request for a provisioned client, the handler answers 422 — the same
client-error status as validation failures — and not the internal-error
status 500 that the claim requires for storage failures. -/
theorem C4_counterexample :
    (handleTransactions (some 1) (some ⟨100, "c", "pix"⟩) ⟨false, none, 1⟩ []).status = 422 ∧
    (handleTransactions (some 1) (some ⟨100, "c", "pix"⟩) ⟨false, none, 1⟩ []).status ≠ 500 := by
  decide

/-- C4 amended: when the INSERT Exec fails (a storage failure below the
core) on a well-formed request for a provisioned client, the handler
surfaces status 422, indistinguishable from the client-error outcome used
for validation failures, with no body and no stored row. -/
theorem C4_amended_storage_error (idParam : Option Int) (t : TransacaoRequest)
    (scan : Option Balance) (now : Nat) (store : List Transacao)
    (hid : clientExists (idParam.getD 0) = true)
    (hd : 1 ≤ t.descricao.length ∧ t.descricao.length ≤ 10)
    (ht : t.tipo = "c" ∨ t.tipo = "d") :
    handleTransactions idParam (some t) ⟨false, scan, now⟩ store = ⟨422, none, true, store⟩ := by
  have h10 : ¬ 10 < t.descricao.length := by omega
  have h0 : ¬ t.descricao.length = 0 := by omega
  have ht2 : ¬ (t.tipo ≠ "c" ∧ t.tipo ≠ "d") := by tauto
  simp [handleTransactions, hid, h10, h0, ht2]

theorem C4_amended_storage_error_witness :
    handleTransactions (some 4) (some ⟨60, "d", "conta"⟩) ⟨false, none, 5⟩ []
      = ⟨422, none, true, []⟩ :=
  C4_amended_storage_error (some 4) ⟨60, "d", "conta"⟩ none 5 [] (by decide) (by decide)
    (by decide)

/-- Insertion step for sorting transactions by realizada_em in descending
order, used to model the ORDER BY realizada_em DESC of the statement
query. -/
def insertDesc (t : Transacao) : List Transacao → List Transacao
  | [] => [t]
  | h :: rest =>
    if h.realizadaEm < t.realizadaEm then t :: h :: rest
    else h :: insertDesc t rest

/-- Sorting by realizada_em in descending order, modelling the ORDER BY
realizada_em DESC clause of the statement query. -/
def sortDesc : List Transacao → List Transacao
  | [] => []
  | h :: rest => insertDesc h (sortDesc rest)

/-- Embedding of the statement query of handleTransactionLog
(src/main.go lines 111-114): SELECT ... FROM transacoes WHERE
cliente_id equals the given id ORDER BY realizada_em DESC LIMIT the given
bound. -/
def getRecentTransactions (clienteId : Int) (store : List Transacao)
    (limit : Nat) : List Transacao :=
  (sortDesc (store.filter (fun r => r.clienteId == clienteId))).take limit

/-- Database oracle for one run of handleTransactionLog: whether the rows
Query succeeds, the result of the balance Scan (none means it returned an
error), and whether every per-row Scan in the loop succeeds. -/
structure LogEnv where
  queryOk : Bool
  balanceScan : Option Balance
  rowScanOk : Bool
deriving DecidableEq, Repr

/-- Observable outcome of one run of handleTransactionLog: the HTTP
status, the body when one is written (current balance plus the recent
transactions), and whether any database access happened. -/
structure LogOutcome where
  status : Nat
  body : Option (Balance × List Transacao)
  dbAccessed : Bool
deriving DecidableEq, Repr

/-- Embedding of handleTransactionLog (src/main.go lines 102-159). As in
handleTransactions, the parse error of the id parameter is discarded and
the zero value 0 is used. An unprovisioned id returns 404 before any
database access; a failed rows Query returns 422; a failed balance Scan
returns 500; a failed per-row Scan returns 400; otherwise the handler
answers 200 with the balance and the rows of the LIMIT 10 descending
query. -/
def handleTransactionLog (idParam : Option Int) (env : LogEnv)
    (store : List Transacao) : LogOutcome :=
  if clientExists (idParam.getD 0) then
    if env.queryOk then
      match env.balanceScan with
      | none => ⟨500, none, true⟩
      | some b =>
        if env.rowScanOk then
          ⟨200, some (b, getRecentTransactions (idParam.getD 0) store 10), true⟩
        else
          ⟨400, none, true⟩
    else
      ⟨422, none, true⟩
  else
    ⟨404, none, false⟩

theorem mem_insertDesc {x t : Transacao} {l : List Transacao}
    (hx : x ∈ insertDesc t l) : x = t ∨ x ∈ l := by
  induction l with
  | nil => simpa [insertDesc] using hx
  | cons h rest ih =>
    by_cases hc : h.realizadaEm < t.realizadaEm
    · simp only [insertDesc, if_pos hc] at hx
      rcases List.mem_cons.1 hx with he | hx2
      · exact Or.inl he
      · exact Or.inr hx2
    · simp only [insertDesc, if_neg hc] at hx
      rcases List.mem_cons.1 hx with he | hx2
      · exact Or.inr (List.mem_cons.2 (Or.inl he))
      · rcases ih hx2 with he | hmem
        · exact Or.inl he
        · exact Or.inr (List.mem_cons.2 (Or.inr hmem))

theorem pairwise_insertDesc {t : Transacao} {l : List Transacao}
    (hl : l.Pairwise (fun a b => b.realizadaEm ≤ a.realizadaEm)) :
    (insertDesc t l).Pairwise (fun a b => b.realizadaEm ≤ a.realizadaEm) := by
  induction l with
  | nil => simp [insertDesc]
  | cons h rest ih =>
    rcases List.pairwise_cons.1 hl with ⟨hh, hrest⟩
    by_cases hc : h.realizadaEm < t.realizadaEm
    · simp only [insertDesc, if_pos hc]
      refine List.pairwise_cons.2 ⟨?_, hl⟩
      intro b hb
      rcases List.mem_cons.1 hb with rfl | hb2
      · omega
      · have := hh b hb2
        omega
    · simp only [insertDesc, if_neg hc]
      refine List.pairwise_cons.2 ⟨?_, ih hrest⟩
      intro b hb
      rcases mem_insertDesc hb with rfl | hb2
      · omega
      · exact hh b hb2

theorem pairwise_sortDesc (l : List Transacao) :
    (sortDesc l).Pairwise (fun a b => b.realizadaEm ≤ a.realizadaEm) := by
  induction l with
  | nil => simp [sortDesc]
  | cons h rest ih => exact pairwise_insertDesc ih

/-- C7: whenever handleTransactionLog answers with a body, the recent
transaction list it contains has at most 10 entries and is ordered by
realizada_em non-increasing, most recent first. -/
theorem C7_recent_transactions (idParam : Option Int) (env : LogEnv)
    (store : List Transacao) (b : Balance) (l : List Transacao)
    (h : (handleTransactionLog idParam env store).body = some (b, l)) :
    l.length ≤ 10 ∧ l.Pairwise (fun a c => c.realizadaEm ≤ a.realizadaEm) := by
  have hl : l = getRecentTransactions (idParam.getD 0) store 10 := by
    unfold handleTransactionLog at h
    by_cases hid : clientExists (idParam.getD 0) <;> simp [hid] at h
    by_cases hq : env.queryOk <;> simp [hq] at h
    cases hb : env.balanceScan with
    | none => simp [hb] at h
    | some b2 =>
      by_cases hr : env.rowScanOk <;> simp [hb, hr] at h
      exact h.2.symm
  subst hl
  constructor
  · simp [getRecentTransactions, List.length_take]
  · exact List.Pairwise.sublist (List.take_sublist 10 _)
      (pairwise_sortDesc (store.filter (fun r => r.clienteId == (idParam.getD 0))))

theorem C7_recent_transactions_witness :
    ([⟨1, 20, "d", "y", 7⟩, ⟨1, 10, "c", "x", 5⟩] : List Transacao).length ≤ 10 ∧
    ([⟨1, 20, "d", "y", 7⟩, ⟨1, 10, "c", "x", 5⟩] : List Transacao).Pairwise
      (fun a c => c.realizadaEm ≤ a.realizadaEm) :=
  C7_recent_transactions (some 1) ⟨true, some ⟨5, 1000⟩, true⟩
    [⟨1, 10, "c", "x", 5⟩, ⟨2, 30, "c", "z", 9⟩, ⟨1, 20, "d", "y", 7⟩]
    ⟨5, 1000⟩ [⟨1, 20, "d", "y", 7⟩, ⟨1, 10, "c", "x", 5⟩] (by decide)

/-- C9: for both handlers the provisioned-client check is membership of
the parsed id in the range 1 to 5: the 404 outcome with no storage access
happens exactly when the id parameter, with parse failures discarded and
replaced by the zero value 0, lies outside that range; and a request whose
id fails to parse behaves identically to one with id 0. -/
theorem C9_provisioned_range (idParam : Option Int) (body : Option TransacaoRequest)
    (env : TxEnv) (lenv : LogEnv) (store : List Transacao) :
    ((handleTransactions idParam body env store = ⟨404, none, false, store⟩) ↔
      ¬ (0 < idParam.getD 0 ∧ idParam.getD 0 ≤ 5)) ∧
    ((handleTransactionLog idParam lenv store = ⟨404, none, false⟩) ↔
      ¬ (0 < idParam.getD 0 ∧ idParam.getD 0 ≤ 5)) ∧
    handleTransactions none body env store = handleTransactions (some 0) body env store ∧
    handleTransactionLog none lenv store = handleTransactionLog (some 0) lenv store := by
  refine ⟨?_, ?_, rfl, rfl⟩
  · rw [← clientExists_iff]
    by_cases hid : clientExists (idParam.getD 0)
    · simp only [hid, not_true_eq_false, iff_false]
      intro he
      have : (handleTransactions idParam body env store).status = 404 := by
        rw [he]
      unfold handleTransactions at this
      rcases body with _ | t
      · simp [hid] at this
      · simp only [hid, if_true] at this
        by_cases h1 : 10 < t.descricao.length ∨ t.descricao.length = 0
        · simp [h1] at this
        · by_cases h2 : t.tipo ≠ "c" ∧ t.tipo ≠ "d"
          · simp [h1, h2] at this
          · by_cases h3 : env.insertOk <;> simp [h1, h2, h3] at this
    · have hc : clientExists (idParam.getD 0) = false := by
        simp [Bool.not_eq_true] at hid
        exact hid
      simp [handleTransactions, hc]
  · rw [← clientExists_iff]
    by_cases hid : clientExists (idParam.getD 0)
    · simp only [hid, not_true_eq_false, iff_false]
      intro he
      have : (handleTransactionLog idParam lenv store).status = 404 := by
        rw [he]
      unfold handleTransactionLog at this
      simp only [hid, if_true] at this
      by_cases hq : lenv.queryOk
      · simp only [hq, if_true] at this
        cases hb : lenv.balanceScan with
        | none => simp [hb] at this
        | some b => by_cases hr : lenv.rowScanOk <;> simp [hb, hr] at this
      · simp [hq] at this
    · have hc : clientExists (idParam.getD 0) = false := by
        simp [Bool.not_eq_true] at hid
        exact hid
      simp [handleTransactionLog, hc]

/-- Normalized transaction type produced by validation: c for credit, d
for debit. -/
inductive Tipo where
  | c
  | d
deriving DecidableEq, Repr

/-- A client record of the clientes table: credit limit and current
balance. -/
structure Cliente where
  limite : Int
  saldo : Int
deriving DecidableEq, Repr

/-- A validated transaction as recorded by the ledger. -/
structure LedgerTx where
  clienteId : Int
  valor : Int
  tipo : Tipo
  descricao : String
deriving DecidableEq, Repr

/-- Outcome of the atomic apply operation. -/
inductive ApplyResult where
  | ok (saldo limite : Int)
  | limitExceeded
  | notFound
deriving DecidableEq, Repr

/-- State of the ledger store: the clientes table as an association list
from id to client record, and the append-only transacoes table. -/
structure LedgerState where
  clientes : List (Int × Cliente)
  transacoes : List LedgerTx
deriving DecidableEq, Repr

/-- Lookup of a client row by id. -/
def findCliente (id : Int) (cs : List (Int × Cliente)) : Option Cliente :=
  match cs.find? (fun p => p.1 == id) with
  | some p => some p.2
  | none => none

/-- Replace the record of the given client id, leaving other rows
unchanged. -/
def updateCliente (id : Int) (c : Cliente) (cs : List (Int × Cliente)) :
    List (Int × Cliente) :=
  cs.map (fun p => if p.1 == id then (p.1, c) else p)

/-- Modelled from the spec: the Ledger Store operation applyTransaction of
section 4.2, which is not present under src/ — the Go handler performs an
unconditional INSERT and delegates the balance update and limit check to
the database layer, whose schema and trigger code are not in src/.
Following the spec: compute the signed delta (plus valor for credit, minus
valor for debit), read the current balance and limit, and if the type is
debit and the candidate balance is below minus limite, abort with
limitExceeded leaving balance and transactions unchanged; otherwise
persist the new balance and the transaction record as one unit and return
the post-transaction balance and limit. -/
def applyTransaction (st : LedgerState) (r : LedgerTx) :
    ApplyResult × LedgerState :=
  match findCliente r.clienteId st.clientes with
  | none => (ApplyResult.notFound, st)
  | some cl =>
    let delta := match r.tipo with | Tipo.c => r.valor | Tipo.d => -r.valor
    let newBalance := cl.saldo + delta
    if r.tipo = Tipo.d ∧ newBalance < -cl.limite then
      (ApplyResult.limitExceeded, st)
    else
      (ApplyResult.ok newBalance cl.limite,
        ⟨updateCliente r.clienteId ⟨cl.limite, newBalance⟩ st.clientes,
          st.transacoes ++ [r]⟩)

/-- Sequential application of a list of validated transactions. -/
def applySeq (st : LedgerState) : List LedgerTx → LedgerState
  | [] => st
  | r :: rs => applySeq (applyTransaction st r).2 rs

/-- The balance invariant of the spec: every client satisfies
saldo at least minus limite. -/
def Inv (st : LedgerState) : Prop :=
  ∀ p ∈ st.clientes, -p.2.limite ≤ p.2.saldo

theorem findCliente_bound {id : Int} {cs : List (Int × Cliente)} {cl : Cliente}
    (hf : findCliente id cs = some cl) (hinv : ∀ p ∈ cs, -p.2.limite ≤ p.2.saldo) :
    -cl.limite ≤ cl.saldo := by
  unfold findCliente at hf
  cases hfind : cs.find? (fun p => p.1 == id) with
  | none => rw [hfind] at hf; cases hf
  | some p =>
    rw [hfind] at hf
    have hp := hinv p (List.mem_of_find?_eq_some hfind)
    have : p.2 = cl := by
      injection hf
    rw [← this]
    exact hp

theorem inv_updateCliente {id : Int} {c : Cliente} {cs : List (Int × Cliente)}
    (hinv : ∀ p ∈ cs, -p.2.limite ≤ p.2.saldo) (hc : -c.limite ≤ c.saldo) :
    ∀ p ∈ updateCliente id c cs, -p.2.limite ≤ p.2.saldo := by
  intro q hq
  unfold updateCliente at hq
  rcases List.mem_map.1 hq with ⟨p, hp, he⟩
  by_cases h : p.1 == id
  · rw [if_pos h] at he
    rw [← he]
    exact hc
  · rw [if_neg h] at he
    rw [← he]
    exact hinv p hp

theorem inv_applyTransaction (st : LedgerState) (r : LedgerTx)
    (hinv : Inv st) (hv : 0 < r.valor) :
    Inv (applyTransaction st r).2 := by
  unfold applyTransaction
  cases hf : findCliente r.clienteId st.clientes with
  | none => exact hinv
  | some cl =>
    simp only
    have hcl : -cl.limite ≤ cl.saldo := findCliente_bound hf hinv
    by_cases hcond :
        r.tipo = Tipo.d ∧ cl.saldo + (match r.tipo with
          | Tipo.c => r.valor
          | Tipo.d => -r.valor) < -cl.limite
    · rw [if_pos hcond]
      exact hinv
    · rw [if_neg hcond]
      intro p hp
      refine inv_updateCliente hinv ?_ p hp
      cases htipo : r.tipo with
      | c =>
        simp only [htipo]
        omega
      | d =>
        rw [htipo] at hcond
        simp only [htipo]
        simp only [true_and] at hcond
        omega

theorem inv_applySeq (st : LedgerState) (reqs : List LedgerTx)
    (hinv : Inv st) (hpos : ∀ r ∈ reqs, 0 < r.valor) :
    Inv (applySeq st reqs) := by
  induction reqs generalizing st with
  | nil => exact hinv
  | cons r rs ih =>
    exact ih (applyTransaction st r).2
      (inv_applyTransaction st r hinv (hpos r (List.mem_cons_self r rs)))
      (fun q hq => hpos q (List.mem_cons_of_mem r hq))

/-- C1: starting from a state satisfying the balance invariant, after any
sequence of applied validated transactions every client still satisfies
saldo at least minus limite; and a debit whose application would push the
balance below minus limite is aborted with limitExceeded, leaving both the
client balances and the transaction list exactly unchanged. -/
theorem C1_limit_invariant (st : LedgerState) (reqs : List LedgerTx)
    (r : LedgerTx) (cl : Cliente)
    (hinv : Inv st) (hpos : ∀ q ∈ reqs, 0 < q.valor)
    (hd : r.tipo = Tipo.d)
    (hf : findCliente r.clienteId (applySeq st reqs).clientes = some cl)
    (hviol : cl.saldo - r.valor < -cl.limite) :
    Inv (applySeq st reqs) ∧
    applyTransaction (applySeq st reqs) r = (ApplyResult.limitExceeded, applySeq st reqs) := by
  refine ⟨inv_applySeq st reqs hinv hpos, ?_⟩
  unfold applyTransaction
  rw [hf]
  simp only [hd]
  rw [if_pos]
  exact ⟨trivial, by omega⟩

theorem C1_limit_invariant_witness :
    Inv (applySeq ⟨[(1, ⟨1000, 0⟩)], []⟩
      [⟨1, 500, Tipo.d, "teste"⟩, ⟨1, 500, Tipo.d, "teste"⟩]) ∧
    applyTransaction (applySeq ⟨[(1, ⟨1000, 0⟩)], []⟩
        [⟨1, 500, Tipo.d, "teste"⟩, ⟨1, 500, Tipo.d, "teste"⟩])
      ⟨1, 500, Tipo.d, "teste"⟩
      = (ApplyResult.limitExceeded,
          applySeq ⟨[(1, ⟨1000, 0⟩)], []⟩
            [⟨1, 500, Tipo.d, "teste"⟩, ⟨1, 500, Tipo.d, "teste"⟩]) :=
  C1_limit_invariant ⟨[(1, ⟨1000, 0⟩)], []⟩
    [⟨1, 500, Tipo.d, "teste"⟩, ⟨1, 500, Tipo.d, "teste"⟩]
    ⟨1, 500, Tipo.d, "teste"⟩ ⟨1000, -1000⟩
    (by unfold Inv; decide) (by decide) (by decide) (by decide) (by decide)

/-- Model of the pattern of handleTransactions lines 75-92: the submitted
transaction is committed by the database, then other concurrent
transactions may commit, and only then does the handler read limite and
saldo in a separate SELECT, reporting whatever that later read observes. -/
def submitThenRead (st : LedgerState) (r : LedgerTx)
    (concurrent : List LedgerTx) : Option Balance :=
  let st1 := (applyTransaction st r).2
  let st2 := applySeq st1 concurrent
  (findCliente r.clienteId st2.clientes).map (fun cl => ⟨cl.saldo, cl.limite⟩)

/-- C2: the code reads the reported balance in a separate query after the
insert, so a concurrent transaction committing in between changes the
reported values. Concretely: client 1 with limite 1000 and saldo 0 submits
a credit of 100, whose atomic apply yields saldo 100; a concurrent debit
of 50 commits between the write and the snapshot read, and the handler
reports saldo 50 instead of the post-apply saldo 100 of its own
operation. -/
theorem C2_read_after_write_race :
    (applyTransaction ⟨[(1, ⟨1000, 0⟩)], []⟩ ⟨1, 100, Tipo.c, "aa"⟩).1
        = ApplyResult.ok 100 1000 ∧
    submitThenRead ⟨[(1, ⟨1000, 0⟩)], []⟩ ⟨1, 100, Tipo.c, "aa"⟩
        [⟨1, 50, Tipo.d, "bb"⟩] = some ⟨50, 1000⟩ ∧
    (50 : Int) ≠ 100 := by
  decide

end Rinha
